import Mathlib

/-!
Shallow embedding of `src/model/text_summarization/pointer_generator.py`
(the pointer-generator summarization model: Encoder, Attention, Decoder and
the PointerGeneratorNetwork orchestration loop), over exact real arithmetic.

Tensors of shape `[n]` become `Fin n → ℝ`; a `[seq, batch]` tensor becomes
`Fin S → Fin B → ℝ`, a `[batch, seq, feat]` tensor `Fin B → Fin S → Fin F → ℝ`,
matching the layouts the source produces.  Widths written `2*hidden_size` in
the source are written `H + H` here so that concatenation needs no casts.

The layout helpers `model.utils.View / Permute / Unsqueeze` are not shipped
under `src/`; per the spec (§9, "Layout-management helper transforms
(reshape/permute/unsqueeze calls scattered through forward passes)") they are
modelled as the evident torch `view` / `permute` / `unsqueeze` reindexings,
which in this typed embedding are just changes of index order.  `nn.Linear`,
`nn.LSTM`, `nn.Softmax`, `nn.Embedding` are embedded by their documented
PyTorch semantics (for the LSTM cell the two PyTorch bias vectors
`b_ih + b_hh` of each gate are combined into one, which is lossless).
-/

noncomputable section

/-- A dense real vector of width `n` (a 1-D tensor). -/
def Vec (n : ℕ) : Type := Fin n → ℝ

instance : Zero (Vec n) := ⟨fun _ => 0⟩

/-- The function `torch.sigmoid`. -/
def sigmoid (x : ℝ) : ℝ := 1 / (1 + Real.exp (-x))

/-- The nonlinearity `nn.ReLU` applied to one scalar entry. -/
def relu (x : ℝ) : ℝ := max x 0

/-- The normalization `nn.Softmax` over one group of size `n`:
`softmax x i = exp (x i) / ∑ j, exp (x j)`. -/
def softmax {n : ℕ} (x : Vec n) : Vec n :=
  fun i => Real.exp (x i) / ∑ j, Real.exp (x j)

/-- Concatenation of dense vectors along the feature axis (`torch.cat(..., dim=1)`
rowwise). -/
def vcat {m n : ℕ} (u : Vec m) (v : Vec n) : Vec (m + n) :=
  fun i => if h : (i : ℕ) < m then u ⟨i, h⟩ else v ⟨(i : ℕ) - m, by omega⟩

/-- Learned parameters of an `nn.Linear(inF, outF)`. -/
structure Linear (inF outF : ℕ) where
  weight : Fin outF → Fin inF → ℝ
  bias : Fin outF → ℝ

/-- The layer `nn.Linear` applied to one row: `x ↦ weight ⬝ x + bias`. -/
def Linear.apply {inF outF : ℕ} (L : Linear inF outF) (x : Vec inF) : Vec outF :=
  fun j => (∑ k, L.weight j k * x k) + L.bias j

/-- Learned parameters of a single-direction, single-layer `nn.LSTM(inF, hid)`;
per gate (input `i`, forget `f`, cell `g`, output `o`) an input weight, a
recurrent weight and a bias (PyTorch's `b_ih + b_hh` combined). -/
structure LSTM (inF hid : ℕ) where
  wi : Fin hid → Fin inF → ℝ
  ui : Fin hid → Fin hid → ℝ
  bi : Fin hid → ℝ
  wf : Fin hid → Fin inF → ℝ
  uf : Fin hid → Fin hid → ℝ
  bf : Fin hid → ℝ
  wg : Fin hid → Fin inF → ℝ
  ug : Fin hid → Fin hid → ℝ
  bg : Fin hid → ℝ
  wo : Fin hid → Fin inF → ℝ
  uo : Fin hid → Fin hid → ℝ
  bo : Fin hid → ℝ

/-- One LSTM step (the standard PyTorch cell equations):
`i,f,o` are sigmoid gates, `g` the tanh candidate, `c' = f*c + i*g`,
`h' = o * tanh c'`. Returns `(h', c')`. -/
def LSTM.cell {inF hid : ℕ} (m : LSTM inF hid) (x : Vec inF) (h c : Vec hid) :
    Vec hid × Vec hid :=
  let gi : Vec hid := fun j =>
    sigmoid ((∑ k, m.wi j k * x k) + (∑ k, m.ui j k * h k) + m.bi j)
  let gf : Vec hid := fun j =>
    sigmoid ((∑ k, m.wf j k * x k) + (∑ k, m.uf j k * h k) + m.bf j)
  let gg : Vec hid := fun j =>
    Real.tanh ((∑ k, m.wg j k * x k) + (∑ k, m.ug j k * h k) + m.bg j)
  let go : Vec hid := fun j =>
    sigmoid ((∑ k, m.wo j k * x k) + (∑ k, m.uo j k * h k) + m.bo j)
  let c2 : Vec hid := fun j => gf j * c j + gi j * gg j
  (fun j => go j * Real.tanh (c2 j), c2)

/-- Running an LSTM from the all-zero initial state over the input stream `x`:
`run m x n` is the `(h, c)` state after consuming `x 0, …, x (n-1)`. -/
def LSTM.run {inF hid : ℕ} (m : LSTM inF hid) (x : ℕ → Vec inF) : ℕ → Vec hid × Vec hid
  | 0 => (0, 0)
  | n + 1 => LSTM.cell m (x n) (LSTM.run m x n).1 (LSTM.run m x n).2

/-- Learned parameters of `Encoder.__init__` (`V` = vocab size, `E` = embedding
dim, `H` = hidden size): an embedding table (`padding_idx=0` only pins row 0
during training, functionally it is a lookup), the two directions of the
bidirectional `nn.LSTM`, the per-position feature projection `self.linear`
(its `utils.View(-1, 2*hidden_size)` makes `nn.Linear` act rowwise), and the
two state reductions (`View(-1, 2H) → Linear(2H, H) → ReLU → Unsqueeze(0)`). -/
structure Encoder (V E H : ℕ) where
  embedding : Fin V → Vec E
  lstmFwd : LSTM E H
  lstmBwd : LSTM E H
  linear : Linear (H + H) (H + H)
  reduce_hidden : Linear (H + H) H
  reduce_cell : Linear (H + H) H

/-- The method `Encoder.forward(x_in)` for `x_in = texts : [S, B]`:
returns `(x, x_out, (hidden, cell))` where
  * `x` is the bidirectional LSTM output after `permute(1, 0, 2)`, i.e. in
    `[B, S, 2H]` layout — position `s` carries the forward hidden state after
    `s+1` steps concatenated with the backward hidden state after `S - s`
    steps of the reversed sequence;
  * `x_out = self.linear(x)` is the rowwise feature projection, kept in the
    flat `[S*B, 2H] ≅ (s, b)` layout the source produces;
  * `hidden`/`cell` are the reduced states: per batch element, concatenate the
    two directions' final states (`transpose(0,1).view(-1, 2H)`), apply the
    reduction `Linear` and `ReLU` (the `Unsqueeze(0)` to `[1, B, H]` is the
    trivial reindexing dropped here). -/
def Encoder.forward {V E H S B : ℕ} (m : Encoder V E H) (texts : Fin S → Fin B → Fin V) :
    (Fin B → Fin S → Vec (H + H)) × (Fin S → Fin B → Vec (H + H)) ×
      ((Fin B → Vec H) × (Fin B → Vec H)) :=
  let emb : Fin B → ℕ → Vec E := fun b n =>
    if h : n < S then m.embedding (texts ⟨n, h⟩ b) else 0
  let fwd : Fin B → ℕ → Vec H × Vec H := fun b => LSTM.run m.lstmFwd (emb b)
  let bwd : Fin B → ℕ → Vec H × Vec H := fun b =>
    LSTM.run m.lstmBwd (fun n => emb b (S - 1 - n))
  let out : Fin S → Fin B → Vec (H + H) := fun s b =>
    vcat (fwd b ((s : ℕ) + 1)).1 (bwd b (S - (s : ℕ))).1
  let features : Fin S → Fin B → Vec (H + H) := fun s b => m.linear.apply (out s b)
  let hiddenRed : Fin B → Vec H := fun b j =>
    relu (m.reduce_hidden.apply (vcat (fwd b S).1 (bwd b S).1) j)
  let cellRed : Fin B → Vec H := fun b j =>
    relu (m.reduce_cell.apply (vcat (fwd b S).2 (bwd b S).2) j)
  (fun b s => out s b, features, (hiddenRed, cellRed))

/-- Learned parameters of `Attention.__init__`: the decoder-state feature
projection `self.features` (`Linear(2H, 2H)`, then `Unsqueeze(0)`), the
coverage projection `self.coverage` (`View(-1,1)` then `Linear(1, 2H)`), and
the scoring head inside `self.attention` (`Tanh` then `Linear(2H, 1)`; the
`View(-1, batch_size) → Softmax(dim=0) → Permute(1,0) → Unsqueeze(1)` tail is
part of the forward functions below).  The constructor's `batch_size` is
configuration, not a parameter; it appears as the softmax grouping width. -/
structure Attention (H : ℕ) where
  features : Linear (H + H) (H + H)
  coverage : Linear 1 (H + H)
  attention : Linear (H + H) 1

/-- The pre-softmax attention score of source position `s` for batch element
`b`: the sum `encoder_features + decoder_features + coverage_features` is
taken through `Tanh` and `Linear(2H, 1)`.  `decoder_features` is
`self.features(hidden)` broadcast (`expand`) over positions, and
`coverage_features` is `self.coverage(coverage)` with `coverage[s][b]` viewed
as a width-1 row. -/
def Attention.scores {H S B : ℕ} (m : Attention H) (hidden : Fin B → Vec (H + H))
    (encoder_features : Fin S → Fin B → Vec (H + H)) (coverage : Fin S → Fin B → ℝ) :
    Fin S → Fin B → ℝ :=
  fun s b =>
    m.attention.apply
      (fun j => Real.tanh (encoder_features s b j +
        m.features.apply (hidden b) j +
        m.coverage.apply (fun _ => coverage s b) j)) 0

/-- The method `Attention.forward(hidden, encoder_out, encoder_features, coverage)` in the
valid-shape case (actual batch = configured `batch_size = B`): the flat
`[S*B, 1]` scores are `View(-1, B)`-reshaped to `[S, B]` (row `s`, column `b`,
because the flat order is position-major) and `Softmax(dim=0)` normalizes each
column — over the `S` positions of one batch element.  Returns
`(context, attention, coverage_next)`: `context b = ∑ s, w s b • encoder_out b s`
(the `bmm` of `[B,1,S]` with `[B,S,2H]`, then `view(-1, 2H)`), `attention` in
`[S, B]` layout (after `view(-1, S).permute(1, 0)`), and
`coverage_next = coverage + attention`. -/
def Attention.forward {H S B : ℕ} (m : Attention H) (hidden : Fin B → Vec (H + H))
    (encoder_out : Fin B → Fin S → Vec (H + H))
    (encoder_features : Fin S → Fin B → Vec (H + H)) (coverage : Fin S → Fin B → ℝ) :
    (Fin B → Vec (H + H)) × (Fin S → Fin B → ℝ) × (Fin S → Fin B → ℝ) :=
  let w : Fin S → Fin B → ℝ := fun s b =>
    softmax (fun s' => Attention.scores m hidden encoder_features coverage s' b) s
  (fun b j => ∑ s, w s b * encoder_out b s j,
   w,
   fun s b => coverage s b + w s b)

/-- Learned parameters of `Decoder.__init__`: an `Attention` module, an
embedding table, the single-direction `nn.LSTM(E, H)`, the context fusion
`self.context` (`Linear(2H + E, E)` then `Unsqueeze(0)`), and the output head
`self.out` (`Linear(3H, H) → Linear(H, V) → Softmax(dim=1)`). -/
structure Decoder (V E H : ℕ) where
  attention : Attention H
  embedding : Fin V → Vec E
  lstm : LSTM E H
  context : Linear ((H + H) + E) E
  out1 : Linear (H + (H + H)) H
  out2 : Linear H V

/-- The `(hidden, cell)` pair the decoder's LSTM produces in one step of
`Decoder.forward`: embed `x_in`, concatenate the incoming context with the
embedding (`torch.cat((context, x), dim=1)`), fuse through `self.context`,
and advance the LSTM one step from `hidden_in`. -/
def Decoder.newState {V E H B : ℕ} (m : Decoder V E H) (x_in : Fin B → Fin V)
    (hidden_in : (Fin B → Vec H) × (Fin B → Vec H)) (context : Fin B → Vec (H + H)) :
    Fin B → Vec H × Vec H :=
  fun b =>
    LSTM.cell m.lstm (m.context.apply (vcat (context b) (m.embedding (x_in b))))
      (hidden_in.1 b) (hidden_in.2 b)

/-- The method `Decoder.forward(x_in, hidden_in, encoder_out, encoder_features, context,
coverage)`: one teacher-forced generation step.  After the LSTM step the new
`hidden` and `cell` are concatenated into `hidden_out` (`[B, 2H]`, the
attention query); attention yields the new context, weights and coverage; the
LSTM output (`x.view(-1, H)`, which equals the new hidden state) is
concatenated with the new context and taken through `self.out`, whose final
`Softmax(dim=1)` normalizes each batch row over the vocabulary.  Returns
`(x, hidden_out, context, attention, coverage_next)`; note the recurrent
`(hidden, cell)` pair itself is not returned, only the concatenation. -/
def Decoder.forward {V E H S B : ℕ} (m : Decoder V E H) (x_in : Fin B → Fin V)
    (hidden_in : (Fin B → Vec H) × (Fin B → Vec H))
    (encoder_out : Fin B → Fin S → Vec (H + H))
    (encoder_features : Fin S → Fin B → Vec (H + H))
    (context : Fin B → Vec (H + H)) (coverage : Fin S → Fin B → ℝ) :
    (Fin B → Fin V → ℝ) × (Fin B → Vec (H + H)) × (Fin B → Vec (H + H)) ×
      (Fin S → Fin B → ℝ) × (Fin S → Fin B → ℝ) :=
  let st : Fin B → Vec H × Vec H := Decoder.newState m x_in hidden_in context
  let hidden_out : Fin B → Vec (H + H) := fun b => vcat (st b).1 (st b).2
  let att := Attention.forward m.attention hidden_out encoder_out encoder_features coverage
  (fun b => softmax (m.out2.apply (m.out1.apply (vcat (st b).1 (att.1 b)))),
   hidden_out, att.1, att.2.1, att.2.2)

/-- Learned parameters of `PointerGeneratorNetwork.__init__`; `batch_size` and
`max_summary_length` are configuration passed to `forward` below. -/
structure PointerGeneratorNetwork (V E H : ℕ) where
  encoder : Encoder V E H
  decoder : Decoder V E H

/-- The decode loop of `PointerGeneratorNetwork.forward`, by recursion on the
number of completed iterations: the loop-carried values are the rebound
variables `context` and `coverage` (first component) and the three result
lists being appended to (second component).  The recurrent state `hidden` is a
parameter, not part of the carried state, because the source loop never
rebinds `hidden` — every iteration passes the same encoder-derived state to
`self.decoder` (the returned `decoder_hidden` is discarded). -/
def PointerGeneratorNetwork.loop {V E H S B : ℕ} (d : Decoder V E H)
    (hidden : (Fin B → Vec H) × (Fin B → Vec H))
    (encoder_out : Fin B → Fin S → Vec (H + H))
    (encoder_features : Fin S → Fin B → Vec (H + H))
    (summaries : ℕ → Fin B → Fin V) :
    ℕ → ((Fin B → Vec (H + H)) × (Fin S → Fin B → ℝ)) ×
      (List (Fin B → Fin V → ℝ) × List (Fin S → Fin B → ℝ) × List (Fin S → Fin B → ℝ))
  | 0 => ((fun _ => 0, fun _ _ => 0), ([], [], []))
  | i + 1 =>
    let prev := PointerGeneratorNetwork.loop d hidden encoder_out encoder_features summaries i
    let r := Decoder.forward d (summaries i) hidden encoder_out encoder_features
      prev.1.1 prev.1.2
    ((r.2.2.1, r.2.2.2.2),
     (prev.2.1 ++ [r.1], prev.2.2.1 ++ [r.2.2.2.1], prev.2.2.2 ++ [r.2.2.2.2]))

/-- The method `PointerGeneratorNetwork.forward(texts, summaries)`: encode once, start
from the all-zero context (`[B, 2H]`) and all-zero coverage (`zeros_like(texts)`
as float, `[S, B]`), then run the decoder `max_summary_length` times (`T`),
feeding `summaries[i, :]` (teacher forcing) and collecting the per-step
vocabulary distributions, attention weights and coverages. -/
def PointerGeneratorNetwork.forward {V E H S B : ℕ} (m : PointerGeneratorNetwork V E H)
    (texts : Fin S → Fin B → Fin V) (summaries : ℕ → Fin B → Fin V) (T : ℕ) :
    List (Fin B → Fin V → ℝ) × List (Fin S → Fin B → ℝ) × List (Fin S → Fin B → ℝ) :=
  let e := Encoder.forward m.encoder texts
  (PointerGeneratorNetwork.loop m.decoder e.2.2 e.1 e.2.1 summaries T).2

/-- The `(context, coverage)` pair the loop carries into iteration `i`. -/
def PointerGeneratorNetwork.stateBefore {V E H S B : ℕ} (m : PointerGeneratorNetwork V E H)
    (texts : Fin S → Fin B → Fin V) (summaries : ℕ → Fin B → Fin V) (i : ℕ) :
    (Fin B → Vec (H + H)) × (Fin S → Fin B → ℝ) :=
  let e := Encoder.forward m.encoder texts
  (PointerGeneratorNetwork.loop m.decoder e.2.2 e.1 e.2.1 summaries i).1

/-- The full result of the decoder invocation at iteration `i` of the loop. -/
def PointerGeneratorNetwork.stepResult {V E H S B : ℕ} (m : PointerGeneratorNetwork V E H)
    (texts : Fin S → Fin B → Fin V) (summaries : ℕ → Fin B → Fin V) (i : ℕ) :
    (Fin B → Fin V → ℝ) × (Fin B → Vec (H + H)) × (Fin B → Vec (H + H)) ×
      (Fin S → Fin B → ℝ) × (Fin S → Fin B → ℝ) :=
  let e := Encoder.forward m.encoder texts
  Decoder.forward m.decoder (summaries i) e.2.2 e.1 e.2.1
    (PointerGeneratorNetwork.stateBefore m texts summaries i).1
    (PointerGeneratorNetwork.stateBefore m texts summaries i).2

/-- The flat `[S*b, 1]` score tensor of `Attention.forward` before the
`View(-1, batch_size)` reshape, for an actual batch dimension `b` that may
differ from the configured `batch_size`: flat index `k = s * b + β` holds the
score of source position `s` for batch element `β` (the tensors are
position-major with the batch axis fastest). Out-of-range indices are junk 0. -/
def Attention.scoresFlat {H S b : ℕ} (m : Attention H) (hidden : Fin b → Vec (H + H))
    (encoder_features : Fin S → Fin b → Vec (H + H)) (coverage : Fin S → Fin b → ℝ) :
    ℕ → ℝ :=
  fun k =>
    if h : k / b < S ∧ k % b < b then
      Attention.scores m hidden encoder_features coverage ⟨k / b, h.1⟩ ⟨k % b, h.2⟩
    else 0

/-- The reshape `View(-1, Bcfg)` followed by `Softmax(dim=0)` on a flat score vector: the
entry at reshaped row `r`, column `c` is normalized against the group of flat
indices `{r' * Bcfg + c | r' < R}` — the column `c` of the `[R, Bcfg]` reshape. -/
def softmaxGroups (Bcfg R : ℕ) (flat : ℕ → ℝ) : ℕ → ℕ → ℝ :=
  fun r c => Real.exp (flat (r * Bcfg + c)) / ∑ r' ∈ Finset.range R, Real.exp (flat (r' * Bcfg + c))

/-- Modelled from the spec: `model.utils.View / Permute / Unsqueeze` (absent
from `src/`; spec §9 describes them as reshape/permute/unsqueeze helper
transforms) with torch's dynamic-shape rules.  `Attention.forward` for an
actual batch dimension `b` that need not equal the configured `batch_size`
(`Bcfg`): `utils.View(-1, Bcfg)` requires `Bcfg` to divide the flat length
`S*b` (else torch raises), producing `R = S*b / Bcfg` rows whose columns
`Softmax(dim=0)` normalizes; after `Permute(1,0)` and `Unsqueeze(1)` the
weight tensor has shape `[Bcfg, 1, R]`, and `torch.bmm` with the `[b, S, 2H]`
`encoder_out` requires `Bcfg = b` and `R = S` (else torch raises).  Fallible
steps return `Except.error`. -/
def Attention.forwardDyn {H S b : ℕ} (m : Attention H) (Bcfg : ℕ)
    (hidden : Fin b → Vec (H + H)) (encoder_out : Fin b → Fin S → Vec (H + H))
    (encoder_features : Fin S → Fin b → Vec (H + H)) (coverage : Fin S → Fin b → ℝ) :
    Except String ((Fin b → Vec (H + H)) × (Fin S → Fin b → ℝ) × (Fin S → Fin b → ℝ)) :=
  if Bcfg ∣ S * b then
    let w := softmaxGroups Bcfg (S * b / Bcfg)
      (Attention.scoresFlat m hidden encoder_features coverage)
    if Bcfg = b ∧ S * b / Bcfg = S then
      Except.ok
        (fun β j => ∑ s : Fin S, w (s : ℕ) (β : ℕ) * encoder_out β s j,
         fun s β => w (s : ℕ) (β : ℕ),
         fun s β => coverage s β + w (s : ℕ) (β : ℕ))
    else Except.error "bmm: batch or sequence length mismatch"
  else Except.error "view: flat size not divisible by batch size"

/-- An `nn.Linear` whose weights and biases are all zero. -/
def zeroLinear (inF outF : ℕ) : Linear inF outF := ⟨fun _ _ => 0, fun _ => 0⟩

/-- An LSTM whose parameters are all zero except the candidate-gate bias
`bg = 1` (so one step from the zero state yields a nonzero cell). -/
def oneGLSTM : LSTM 1 1 :=
  ⟨fun _ _ => 0, fun _ _ => 0, fun _ => 0,
   fun _ _ => 0, fun _ _ => 0, fun _ => 0,
   fun _ _ => 0, fun _ _ => 0, fun _ => 1,
   fun _ _ => 0, fun _ _ => 0, fun _ => 0⟩

/-- An all-zero LSTM. -/
def zeroLSTM (inF hid : ℕ) : LSTM inF hid :=
  ⟨fun _ _ => 0, fun _ _ => 0, fun _ => 0,
   fun _ _ => 0, fun _ _ => 0, fun _ => 0,
   fun _ _ => 0, fun _ _ => 0, fun _ => 0,
   fun _ _ => 0, fun _ _ => 0, fun _ => 0⟩

/-- Attention parameters, all zero, at `hidden_size = 1`. -/
def cAttention : Attention 1 := ⟨zeroLinear 2 2, zeroLinear 1 2, zeroLinear 2 1⟩

/-- Concrete encoder at `V = E = H = 1`, all parameters zero. -/
def cEncoder : Encoder 1 1 1 :=
  ⟨fun _ => 0, zeroLSTM 1 1, zeroLSTM 1 1, zeroLinear 2 2, zeroLinear 2 1, zeroLinear 2 1⟩

/-- Concrete decoder at `V = E = H = 1`: all parameters zero except the LSTM
candidate-gate bias. -/
def cDecoder : Decoder 1 1 1 :=
  ⟨cAttention, fun _ => 0, oneGLSTM, zeroLinear 3 1, zeroLinear 3 1, zeroLinear 1 1⟩

/-- Concrete network used as a concrete input for the claims below. -/
def cPGN : PointerGeneratorNetwork 1 1 1 := ⟨cEncoder, cDecoder⟩

/-- Concrete source text: `sourceLen = 1`, `batch = 1`, the single token 0. -/
def cTexts : Fin 1 → Fin 1 → Fin 1 := fun _ _ => 0

/-- Concrete target summary stream: every position the token 0. -/
def cSumm : ℕ → Fin 1 → Fin 1 := fun _ _ => 0

/-- Decoder query states for an attention call with actual batch `b = 2`
(configured batch size will be 1). -/
def dHidden : Fin 2 → Vec (1 + 1) := fun _ => 0

/-- Encoder outputs (`[b, S, 2H] = [2, 1, 2]`) for the batch-2 attention call. -/
def dEncOut : Fin 2 → Fin 1 → Vec (1 + 1) := fun _ _ => 0

/-- Encoder features (`(s, b)` layout) for the batch-2 attention call. -/
def dEncFeat : Fin 1 → Fin 2 → Vec (1 + 1) := fun _ _ => 0

/-- Coverage for the batch-2 attention call. -/
def dCov : Fin 1 → Fin 2 → ℝ := fun _ _ => 0

/-- Decoder query states for an attention call with actual batch `b = 1`
(configured batch size will be 2, source length 2). -/
def wHidden : Fin 1 → Vec (1 + 1) := fun _ => 0

/-- Encoder outputs (`[1, 2, 2]`) for the batch-1 attention call. -/
def wEncOut : Fin 1 → Fin 2 → Vec (1 + 1) := fun _ _ => 0

/-- Encoder features for the batch-1 attention call. -/
def wEncFeat : Fin 2 → Fin 1 → Vec (1 + 1) := fun _ _ => 0

/-- Coverage for the batch-1 attention call. -/
def wCov : Fin 2 → Fin 1 → ℝ := fun _ _ => 0

/-- The decoder invocation performed by iteration `i` of the loop (its
arguments are the fixed `hidden`, the encoder caches, token `i` of the
summaries, and the loop-carried context and coverage). -/
def PointerGeneratorNetwork.loopStep {V E H S B : ℕ} (d : Decoder V E H)
    (hidden : (Fin B → Vec H) × (Fin B → Vec H))
    (encoder_out : Fin B → Fin S → Vec (H + H))
    (encoder_features : Fin S → Fin B → Vec (H + H))
    (summaries : ℕ → Fin B → Fin V) (i : ℕ) :
    (Fin B → Fin V → ℝ) × (Fin B → Vec (H + H)) × (Fin B → Vec (H + H)) ×
      (Fin S → Fin B → ℝ) × (Fin S → Fin B → ℝ) :=
  Decoder.forward d (summaries i) hidden encoder_out encoder_features
    (PointerGeneratorNetwork.loop d hidden encoder_out encoder_features summaries i).1.1
    (PointerGeneratorNetwork.loop d hidden encoder_out encoder_features summaries i).1.2

end

section Lemmas

lemma relu_nonneg (x : ℝ) : 0 ≤ relu x := le_max_right x 0

lemma sum_exp_pos {n : ℕ} (x : Vec (n + 1)) : 0 < ∑ j, Real.exp (x j) :=
  Finset.sum_pos (fun j _ => Real.exp_pos (x j)) Finset.univ_nonempty

lemma softmax_nonneg {n : ℕ} (x : Vec n) (i : Fin n) : 0 ≤ softmax x i :=
  div_nonneg (Real.exp_pos (x i)).le (Finset.sum_nonneg fun j _ => (Real.exp_pos (x j)).le)

lemma softmax_pos {n : ℕ} (x : Vec (n + 1)) (i : Fin (n + 1)) : 0 < softmax x i :=
  div_pos (Real.exp_pos (x i)) (sum_exp_pos x)

lemma softmax_sum_one {n : ℕ} (x : Vec (n + 1)) : ∑ i, softmax x i = 1 := by
  unfold softmax
  rw [← Finset.sum_div]
  exact div_self (ne_of_gt (sum_exp_pos x))

lemma get_append_lt {α : Type _} (l l' : List α) (i : ℕ) (h : i < l.length) :
    (l ++ l').get? i = l.get? i := by
  induction l generalizing i with
  | nil => simp at h
  | cons a t ih =>
    cases i with
    | zero => rfl
    | succ n => exact ih n (by rw [List.length_cons] at h; omega)

lemma get_append_len {α : Type _} (l : List α) (a : α) : (l ++ [a]).get? l.length = some a := by
  induction l with
  | nil => rfl
  | cons b t ih => simp only [List.cons_append, List.length_cons, List.get?_cons_succ]; exact ih

end Lemmas

section LoopLemmas

variable {V E H S B : ℕ} (d : Decoder V E H)
  (hidden : (Fin B → Vec H) × (Fin B → Vec H))
  (eo : Fin B → Fin S → Vec (H + H)) (ef : Fin S → Fin B → Vec (H + H))
  (sm : ℕ → Fin B → Fin V)

lemma loop_succ (i : ℕ) :
    PointerGeneratorNetwork.loop d hidden eo ef sm (i + 1) =
      ((((PointerGeneratorNetwork.loopStep d hidden eo ef sm i).2.2.1 : Fin B → Vec (H + H)),
        (PointerGeneratorNetwork.loopStep d hidden eo ef sm i).2.2.2.2),
       ((PointerGeneratorNetwork.loop d hidden eo ef sm i).2.1 ++
          [(PointerGeneratorNetwork.loopStep d hidden eo ef sm i).1],
        (PointerGeneratorNetwork.loop d hidden eo ef sm i).2.2.1 ++
          [(PointerGeneratorNetwork.loopStep d hidden eo ef sm i).2.2.2.1],
        (PointerGeneratorNetwork.loop d hidden eo ef sm i).2.2.2 ++
          [(PointerGeneratorNetwork.loopStep d hidden eo ef sm i).2.2.2.2])) := rfl

lemma loop_lengths (i : ℕ) :
    (PointerGeneratorNetwork.loop d hidden eo ef sm i).2.1.length = i ∧
    (PointerGeneratorNetwork.loop d hidden eo ef sm i).2.2.1.length = i ∧
    (PointerGeneratorNetwork.loop d hidden eo ef sm i).2.2.2.length = i := by
  induction i with
  | zero => exact ⟨rfl, rfl, rfl⟩
  | succ n ih =>
    rw [loop_succ]
    simp [ih.1, ih.2.1, ih.2.2]

lemma loop_get_dist (T i : ℕ) (h : i < T) :
    (PointerGeneratorNetwork.loop d hidden eo ef sm T).2.1.get? i =
      some ((PointerGeneratorNetwork.loopStep d hidden eo ef sm i).1) := by
  induction T with
  | zero => omega
  | succ n ih =>
    rw [loop_succ]
    rcases Nat.lt_or_ge i n with hlt | hge
    · rw [get_append_lt _ _ i (by rw [(loop_lengths d hidden eo ef sm n).1]; exact hlt)]
      exact ih hlt
    · have hi : i = n := by omega
      subst hi
      have hlen := (loop_lengths d hidden eo ef sm i).1
      have hget := get_append_len (PointerGeneratorNetwork.loop d hidden eo ef sm i).2.1
        (PointerGeneratorNetwork.loopStep d hidden eo ef sm i).1
      rw [hlen] at hget
      exact hget

lemma loop_get_attn (T i : ℕ) (h : i < T) :
    (PointerGeneratorNetwork.loop d hidden eo ef sm T).2.2.1.get? i =
      some ((PointerGeneratorNetwork.loopStep d hidden eo ef sm i).2.2.2.1) := by
  induction T with
  | zero => omega
  | succ n ih =>
    rw [loop_succ]
    rcases Nat.lt_or_ge i n with hlt | hge
    · rw [get_append_lt _ _ i (by rw [(loop_lengths d hidden eo ef sm n).2.1]; exact hlt)]
      exact ih hlt
    · have hi : i = n := by omega
      subst hi
      have hlen := (loop_lengths d hidden eo ef sm i).2.1
      have hget := get_append_len (PointerGeneratorNetwork.loop d hidden eo ef sm i).2.2.1
        (PointerGeneratorNetwork.loopStep d hidden eo ef sm i).2.2.2.1
      rw [hlen] at hget
      exact hget

lemma loop_get_cov (T i : ℕ) (h : i < T) :
    (PointerGeneratorNetwork.loop d hidden eo ef sm T).2.2.2.get? i =
      some ((PointerGeneratorNetwork.loopStep d hidden eo ef sm i).2.2.2.2) := by
  induction T with
  | zero => omega
  | succ n ih =>
    rw [loop_succ]
    rcases Nat.lt_or_ge i n with hlt | hge
    · rw [get_append_lt _ _ i (by rw [(loop_lengths d hidden eo ef sm n).2.2]; exact hlt)]
      exact ih hlt
    · have hi : i = n := by omega
      subst hi
      have hlen := (loop_lengths d hidden eo ef sm i).2.2
      have hget := get_append_len (PointerGeneratorNetwork.loop d hidden eo ef sm i).2.2.2
        (PointerGeneratorNetwork.loopStep d hidden eo ef sm i).2.2.2.2
      rw [hlen] at hget
      exact hget

end LoopLemmas

section StepLemmas

variable {V E H S B : ℕ}

/-- The attention-weight output of one decoder step is a per-batch-column
softmax of the attention scores (reading off `Decoder.forward` and
`Attention.forward`). -/
lemma Decoder.forward_attn (m : Decoder V E H) (x_in : Fin B → Fin V)
    (hidden_in : (Fin B → Vec H) × (Fin B → Vec H))
    (eo : Fin B → Fin S → Vec (H + H)) (ef : Fin S → Fin B → Vec (H + H))
    (ctx : Fin B → Vec (H + H)) (cov : Fin S → Fin B → ℝ) (s : Fin S) (b : Fin B) :
    (Decoder.forward m x_in hidden_in eo ef ctx cov).2.2.2.1 s b =
      softmax (fun s' => Attention.scores m.attention
        (fun b' => vcat ((Decoder.newState m x_in hidden_in ctx) b').1
          ((Decoder.newState m x_in hidden_in ctx) b').2) ef cov s' b) s := rfl

/-- The coverage output of one decoder step is the incoming coverage plus the
attention-weight output (the accumulation inside `Attention.forward`). -/
lemma Decoder.forward_cov (m : Decoder V E H) (x_in : Fin B → Fin V)
    (hidden_in : (Fin B → Vec H) × (Fin B → Vec H))
    (eo : Fin B → Fin S → Vec (H + H)) (ef : Fin S → Fin B → Vec (H + H))
    (ctx : Fin B → Vec (H + H)) (cov : Fin S → Fin B → ℝ) (s : Fin S) (b : Fin B) :
    (Decoder.forward m x_in hidden_in eo ef ctx cov).2.2.2.2 s b =
      cov s b + (Decoder.forward m x_in hidden_in eo ef ctx cov).2.2.2.1 s b := rfl

/-- The vocabulary-distribution output of one decoder step is a per-row
softmax of the output head's logits. -/
lemma Decoder.forward_dist (m : Decoder V E H) (x_in : Fin B → Fin V)
    (hidden_in : (Fin B → Vec H) × (Fin B → Vec H))
    (eo : Fin B → Fin S → Vec (H + H)) (ef : Fin S → Fin B → Vec (H + H))
    (ctx : Fin B → Vec (H + H)) (cov : Fin S → Fin B → ℝ) (b : Fin B) :
    (Decoder.forward m x_in hidden_in eo ef ctx cov).1 b =
      softmax (m.out2.apply (m.out1.apply
        (vcat ((Decoder.newState m x_in hidden_in ctx) b).1
          ((Decoder.forward m x_in hidden_in eo ef ctx cov).2.2.1 b)))) := rfl

end StepLemmas

section CovLemmas

variable {V E H S B : ℕ} (d : Decoder V E H)
  (hidden : (Fin B → Vec H) × (Fin B → Vec H))
  (eo : Fin B → Fin S → Vec (H + H)) (ef : Fin S → Fin B → Vec (H + H))
  (sm : ℕ → Fin B → Fin V)

lemma loop_zero_cov (s : Fin S) (b : Fin B) :
    (PointerGeneratorNetwork.loop d hidden eo ef sm 0).1.2 s b = 0 := rfl

lemma loop_succ_cov (i : ℕ) (s : Fin S) (b : Fin B) :
    (PointerGeneratorNetwork.loop d hidden eo ef sm (i + 1)).1.2 s b =
      (PointerGeneratorNetwork.loop d hidden eo ef sm i).1.2 s b +
        (PointerGeneratorNetwork.loopStep d hidden eo ef sm i).2.2.2.1 s b := by
  show (PointerGeneratorNetwork.loopStep d hidden eo ef sm i).2.2.2.2 s b = _
  exact Decoder.forward_cov d _ _ _ _ _ _ s b

lemma loopStep_attn_nonneg (i : ℕ) (s : Fin S) (b : Fin B) :
    0 ≤ (PointerGeneratorNetwork.loopStep d hidden eo ef sm i).2.2.2.1 s b := by
  rw [show (PointerGeneratorNetwork.loopStep d hidden eo ef sm i).2.2.2.1 s b =
      (Decoder.forward d (sm i) hidden eo ef
        (PointerGeneratorNetwork.loop d hidden eo ef sm i).1.1
        (PointerGeneratorNetwork.loop d hidden eo ef sm i).1.2).2.2.2.1 s b from rfl,
    Decoder.forward_attn]
  exact softmax_nonneg _ s

lemma loop_cov_nonneg (i : ℕ) (s : Fin S) (b : Fin B) :
    0 ≤ (PointerGeneratorNetwork.loop d hidden eo ef sm i).1.2 s b := by
  induction i with
  | zero => rw [loop_zero_cov]
  | succ n ih =>
    rw [loop_succ_cov]
    exact add_nonneg ih (loopStep_attn_nonneg d hidden eo ef sm n s b)

/-- The loop-carried coverage after `i + 1` iterations is the elementwise sum
of the attention weights of iterations `0 … i`. -/
lemma loop_cov_eq_sum (i : ℕ) (s : Fin S) (b : Fin B) :
    (PointerGeneratorNetwork.loop d hidden eo ef sm (i + 1)).1.2 s b =
      ∑ j ∈ Finset.range (i + 1),
        (PointerGeneratorNetwork.loopStep d hidden eo ef sm j).2.2.2.1 s b := by
  induction i with
  | zero => rw [loop_succ_cov, loop_zero_cov, zero_add, Finset.sum_range_one]
  | succ n ih =>
    rw [loop_succ_cov, ih]
    exact (Finset.sum_range_succ _ (n + 1)).symm

end CovLemmas

section Bridges

variable {V E H S B : ℕ}

lemma zeroLinear_apply (inF outF : ℕ) (x : Vec inF) (j : Fin outF) :
    (zeroLinear inF outF).apply x j = 0 := by
  simp [zeroLinear, Linear.apply]

lemma sigmoid_pos (x : ℝ) : 0 < sigmoid x := by
  unfold sigmoid
  positivity

lemma tanh_one_pos : 0 < Real.tanh 1 := by
  rw [Real.tanh_eq_sinh_div_cosh]
  exact div_pos (Real.sinh_pos_iff.mpr one_pos) (Real.cosh_pos 1)

/-- A softmax over a single position is identically 1. -/
lemma softmax_single (x : Vec 1) (i : Fin 1) : softmax x i = 1 := by
  unfold softmax
  rw [Fin.sum_univ_one, Subsingleton.elim i 0]
  exact div_self (Real.exp_ne_zero _)

lemma forward_eq_loop (m : PointerGeneratorNetwork V E H) (texts : Fin S → Fin B → Fin V)
    (summ : ℕ → Fin B → Fin V) (T : ℕ) :
    PointerGeneratorNetwork.forward m texts summ T =
      (PointerGeneratorNetwork.loop m.decoder (Encoder.forward m.encoder texts).2.2
        (Encoder.forward m.encoder texts).1 (Encoder.forward m.encoder texts).2.1 summ T).2 := rfl

lemma stateBefore_eq_loop (m : PointerGeneratorNetwork V E H) (texts : Fin S → Fin B → Fin V)
    (summ : ℕ → Fin B → Fin V) (i : ℕ) :
    PointerGeneratorNetwork.stateBefore m texts summ i =
      (PointerGeneratorNetwork.loop m.decoder (Encoder.forward m.encoder texts).2.2
        (Encoder.forward m.encoder texts).1 (Encoder.forward m.encoder texts).2.1 summ i).1 := rfl

lemma stepResult_eq_loopStep (m : PointerGeneratorNetwork V E H) (texts : Fin S → Fin B → Fin V)
    (summ : ℕ → Fin B → Fin V) (i : ℕ) :
    PointerGeneratorNetwork.stepResult m texts summ i =
      PointerGeneratorNetwork.loopStep m.decoder (Encoder.forward m.encoder texts).2.2
        (Encoder.forward m.encoder texts).1 (Encoder.forward m.encoder texts).2.1 summ i := rfl

/-- The attention-weight output of `Attention.forward` is the softmax of the
score column of the batch element alone. -/
lemma Attention.forward_weights {H S B : ℕ} (m : Attention H) (hidden : Fin B → Vec (H + H))
    (eo : Fin B → Fin S → Vec (H + H)) (ef : Fin S → Fin B → Vec (H + H))
    (cov : Fin S → Fin B → ℝ) (s : Fin S) (b : Fin B) :
    (Attention.forward m hidden eo ef cov).2.1 s b =
      softmax (fun s' => Attention.scores m hidden ef cov s' b) s := rfl

/-- The coverage output of `Attention.forward` is the incoming coverage plus
the attention-weight output. -/
lemma Attention.forward_covnext {H S B : ℕ} (m : Attention H) (hidden : Fin B → Vec (H + H))
    (eo : Fin B → Fin S → Vec (H + H)) (ef : Fin S → Fin B → Vec (H + H))
    (cov : Fin S → Fin B → ℝ) (s : Fin S) (b : Fin B) :
    (Attention.forward m hidden eo ef cov).2.2 s b =
      cov s b + (Attention.forward m hidden eo ef cov).2.1 s b := rfl

end Bridges

/-- C3: for every valid input (actual batch = configured batch size, nonempty
source), the attention weight vector produced by `Attention.forward` is, for
every batch element `b`, non-negative, sums to 1 over the source positions,
and equals the softmax of the score column of `b` alone — the normalization
partitions by batch element and never mixes scores of different batch
elements. -/
theorem c3_attention_weights_per_batch_distribution (H S B : ℕ) (m : Attention H)
    (hidden : Fin B → Vec (H + H)) (eo : Fin B → Fin (S + 1) → Vec (H + H))
    (ef : Fin (S + 1) → Fin B → Vec (H + H)) (cov : Fin (S + 1) → Fin B → ℝ) (b : Fin B) :
    (∀ s, 0 ≤ (Attention.forward m hidden eo ef cov).2.1 s b) ∧
    (∑ s, (Attention.forward m hidden eo ef cov).2.1 s b) = 1 ∧
    (∀ s, (Attention.forward m hidden eo ef cov).2.1 s b =
      softmax (fun s' => Attention.scores m hidden ef cov s' b) s) := by
  refine ⟨fun s => ?_, ?_, fun s => Attention.forward_weights m hidden eo ef cov s b⟩
  · rw [Attention.forward_weights]
    exact softmax_nonneg _ s
  · rw [Finset.sum_congr rfl (fun s _ => Attention.forward_weights m hidden eo ef cov s b)]
    exact softmax_sum_one _

/-- C4: every vocabulary distribution returned by `Decoder.forward` is a
probability distribution per batch row (non-negative entries summing exactly
to 1 over the reals), for a nonempty vocabulary. -/
theorem c4_vocab_dist_rows_sum_to_one (V E H S B : ℕ) (m : Decoder (V + 1) E H)
    (x_in : Fin B → Fin (V + 1)) (hidden_in : (Fin B → Vec H) × (Fin B → Vec H))
    (eo : Fin B → Fin S → Vec (H + H)) (ef : Fin S → Fin B → Vec (H + H))
    (ctx : Fin B → Vec (H + H)) (cov : Fin S → Fin B → ℝ) (b : Fin B) :
    (∀ v, 0 ≤ (Decoder.forward m x_in hidden_in eo ef ctx cov).1 b v) ∧
    (∑ v, (Decoder.forward m x_in hidden_in eo ef ctx cov).1 b v) = 1 := by
  constructor
  · intro v
    rw [Decoder.forward_dist]
    exact softmax_nonneg _ v
  · rw [Finset.sum_congr rfl
      (fun v _ => congrFun (Decoder.forward_dist m x_in hidden_in eo ef ctx cov b) v)]
    exact softmax_sum_one _

/-- C5: for every invocation of `PointerGeneratorNetwork.forward`, each of the
three returned sequences has exactly `T = maxSummaryLength` entries, and the
entry at index `i` is the output of decode step `i` (the loop runs the full
configured length, with no early stop). -/
theorem c5_output_sequences_full_length (V E H S B : ℕ) (m : PointerGeneratorNetwork V E H)
    (texts : Fin S → Fin B → Fin V) (summ : ℕ → Fin B → Fin V) :
    (∀ T, (PointerGeneratorNetwork.forward m texts summ T).1.length = T ∧
      (PointerGeneratorNetwork.forward m texts summ T).2.1.length = T ∧
      (PointerGeneratorNetwork.forward m texts summ T).2.2.length = T) ∧
    (∀ i k, (PointerGeneratorNetwork.forward m texts summ (i + 1 + k)).1.get? i =
        some ((PointerGeneratorNetwork.stepResult m texts summ i).1) ∧
      (PointerGeneratorNetwork.forward m texts summ (i + 1 + k)).2.1.get? i =
        some ((PointerGeneratorNetwork.stepResult m texts summ i).2.2.2.1) ∧
      (PointerGeneratorNetwork.forward m texts summ (i + 1 + k)).2.2.get? i =
        some ((PointerGeneratorNetwork.stepResult m texts summ i).2.2.2.2)) := by
  constructor
  · intro T
    rw [forward_eq_loop]
    exact loop_lengths m.decoder _ _ _ summ T
  · intro i k
    have hik : i < i + 1 + k := by omega
    refine ⟨?_, ?_, ?_⟩
    · rw [forward_eq_loop, stepResult_eq_loopStep]
      exact loop_get_dist m.decoder _ _ _ summ _ i hik
    · rw [forward_eq_loop, stepResult_eq_loopStep]
      exact loop_get_attn m.decoder _ _ _ summ _ i hik
    · rw [forward_eq_loop, stepResult_eq_loopStep]
      exact loop_get_cov m.decoder _ _ _ summ _ i hik

/-- C6: the coverage vector is monotonically non-decreasing elementwise:
each `Attention.forward` returns `coverage + attention` with non-negative
attention weights, and across the run the loop-carried coverage never
decreases (it is never reset within a sequence). -/
theorem c6_coverage_monotone :
    (∀ (H S B : ℕ) (m : Attention H) (hidden : Fin B → Vec (H + H))
        (eo : Fin B → Fin S → Vec (H + H)) (ef : Fin S → Fin B → Vec (H + H))
        (cov : Fin S → Fin B → ℝ) (s : Fin S) (b : Fin B),
      (Attention.forward m hidden eo ef cov).2.2 s b =
        cov s b + (Attention.forward m hidden eo ef cov).2.1 s b ∧
      0 ≤ (Attention.forward m hidden eo ef cov).2.1 s b) ∧
    (∀ (V E H S B : ℕ) (m : PointerGeneratorNetwork V E H) (texts : Fin S → Fin B → Fin V)
        (summ : ℕ → Fin B → Fin V) (i : ℕ) (s : Fin S) (b : Fin B),
      (PointerGeneratorNetwork.stateBefore m texts summ i).2 s b ≤
        (PointerGeneratorNetwork.stateBefore m texts summ (i + 1)).2 s b) := by
  constructor
  · intro H S B m hidden eo ef cov s b
    refine ⟨Attention.forward_covnext m hidden eo ef cov s b, ?_⟩
    rw [Attention.forward_weights]
    exact softmax_nonneg _ s
  · intro V E H S B m texts summ i s b
    rw [stateBefore_eq_loop, stateBefore_eq_loop, loop_succ_cov]
    exact le_add_of_nonneg_right (loopStep_attn_nonneg m.decoder _ _ _ summ i s b)

/-- C7: the encoder's reduction of the bidirectional final hidden and cell
states (concatenate directions to width 2H, learned linear map, then ReLU)
produces elementwise non-negative output vectors. -/
theorem c7_state_reduction_nonneg (V E H S B : ℕ) (m : Encoder V E H)
    (texts : Fin S → Fin B → Fin V) (b : Fin B) (j : Fin H) :
    0 ≤ (Encoder.forward m texts).2.2.1 b j ∧ 0 ≤ (Encoder.forward m texts).2.2.2 b j :=
  ⟨relu_nonneg _, relu_nonneg _⟩

/-- C8: the forward pass is deterministic — for fixed learned parameters and
fixed inputs, two invocations of `PointerGeneratorNetwork.forward` return
identical outputs.  The source forward path contains no stochastic primitive
(no sampling, no dropout), so it embeds as a pure function of the parameters
and inputs, and the two invocations are literally the same value. -/
theorem c8_forward_deterministic (V E H S B : ℕ) (m : PointerGeneratorNetwork V E H)
    (texts : Fin S → Fin B → Fin V) (summ : ℕ → Fin B → Fin V) (T : ℕ) :
    PointerGeneratorNetwork.forward m texts summ T =
      PointerGeneratorNetwork.forward m texts summ T := rfl

/-- C2 (counterexample): the claim "`coverages[0]` is all zeros" is false.
At the concrete all-zero network `cPGN` with `sourceLen = batch = 1` and one
decode step, entry `(0,0)` of the first returned coverage is 1, not 0: the
source appends the coverage *after* the step-`i` update
(`coverage_list.append(coverage)` runs after `self.decoder` returned the
updated coverage), so `coverages[0]` already contains the step-0 attention
weights. -/
theorem c2_coverages0_not_all_zeros :
    Option.map (fun c => c 0 0) ((PointerGeneratorNetwork.forward cPGN cTexts cSumm 1).2.2.get? 0)
      = some 1 ∧ (1 : ℝ) ≠ 0 := by
  constructor
  · rw [forward_eq_loop,
      loop_get_cov cPGN.decoder _ _ _ cSumm 1 0 (by omega), Option.map_some']
    have hcov : (PointerGeneratorNetwork.loop cPGN.decoder
        (Encoder.forward cPGN.encoder cTexts).2.2 (Encoder.forward cPGN.encoder cTexts).1
        (Encoder.forward cPGN.encoder cTexts).2.1 cSumm 1).1.2 0 0 = 1 := by
      rw [loop_succ_cov, loop_zero_cov, zero_add]
      unfold PointerGeneratorNetwork.loopStep
      rw [Decoder.forward_attn]
      exact softmax_single _ _
    exact congrArg some hcov
  · exact one_ne_zero

/-- C2 (amended): the `t`-th entry of the returned coverages sequence equals
the elementwise sum of the returned attention weight vectors of steps
`0..t` (including step `t` itself, since the list stores the post-update
coverage); in particular `coverages[0] = attentions[0]` and, with
`maxSummaryLength = 3`, `coverages[2] = attentions[0]+attentions[1]+attentions[2]`
elementwise. -/
theorem c2_returned_coverage_cumulative_sum (V E H S B : ℕ)
    (m : PointerGeneratorNetwork V E H) (texts : Fin S → Fin B → Fin V)
    (summ : ℕ → Fin B → Fin V) (i k : ℕ) (s : Fin S) (b : Fin B) :
    (PointerGeneratorNetwork.forward m texts summ (i + 1 + k)).2.2.get? i =
      some ((PointerGeneratorNetwork.stepResult m texts summ i).2.2.2.2) ∧
    (PointerGeneratorNetwork.stepResult m texts summ i).2.2.2.2 s b =
      ∑ j ∈ Finset.range (i + 1),
        (PointerGeneratorNetwork.stepResult m texts summ j).2.2.2.1 s b := by
  constructor
  · rw [forward_eq_loop, stepResult_eq_loopStep]
    exact loop_get_cov m.decoder _ _ _ summ _ i (by omega)
  · simp only [stepResult_eq_loopStep]
    exact loop_cov_eq_sum m.decoder (Encoder.forward m.encoder texts).2.2
      (Encoder.forward m.encoder texts).1 (Encoder.forward m.encoder texts).2.1 summ i s b

/-- C10: over exact real arithmetic, every entry of every returned vocabulary
distribution and attention weight vector is strictly positive (both final
normalizations are softmaxes, never exactly zero), and consequently every
entry of every returned coverage vector is strictly positive.  Strict
positivity of every entry rules out an exact one-hot (fully degenerate)
distribution whenever there are at least two entries. -/
theorem c10_outputs_strictly_positive (V E H S B : ℕ)
    (m : PointerGeneratorNetwork (V + 1) E H) (texts : Fin (S + 1) → Fin B → Fin (V + 1))
    (summ : ℕ → Fin B → Fin (V + 1)) (i k : ℕ) (b : Fin B) (v : Fin (V + 1)) (s : Fin (S + 1)) :
    ((PointerGeneratorNetwork.forward m texts summ (i + 1 + k)).1.get? i =
        some ((PointerGeneratorNetwork.stepResult m texts summ i).1) ∧
      0 < (PointerGeneratorNetwork.stepResult m texts summ i).1 b v) ∧
    ((PointerGeneratorNetwork.forward m texts summ (i + 1 + k)).2.1.get? i =
        some ((PointerGeneratorNetwork.stepResult m texts summ i).2.2.2.1) ∧
      0 < (PointerGeneratorNetwork.stepResult m texts summ i).2.2.2.1 s b) ∧
    ((PointerGeneratorNetwork.forward m texts summ (i + 1 + k)).2.2.get? i =
        some ((PointerGeneratorNetwork.stepResult m texts summ i).2.2.2.2) ∧
      0 < (PointerGeneratorNetwork.stepResult m texts summ i).2.2.2.2 s b) := by
  have hik : i < i + 1 + k := by omega
  refine ⟨⟨?_, ?_⟩, ⟨?_, ?_⟩, ⟨?_, ?_⟩⟩
  · rw [forward_eq_loop, stepResult_eq_loopStep]
    exact loop_get_dist m.decoder _ _ _ summ _ i hik
  · rw [stepResult_eq_loopStep]
    unfold PointerGeneratorNetwork.loopStep
    rw [show (Decoder.forward m.decoder (summ i) (Encoder.forward m.encoder texts).2.2
        (Encoder.forward m.encoder texts).1 (Encoder.forward m.encoder texts).2.1
        (PointerGeneratorNetwork.loop m.decoder (Encoder.forward m.encoder texts).2.2
          (Encoder.forward m.encoder texts).1 (Encoder.forward m.encoder texts).2.1 summ i).1.1
        (PointerGeneratorNetwork.loop m.decoder (Encoder.forward m.encoder texts).2.2
          (Encoder.forward m.encoder texts).1 (Encoder.forward m.encoder texts).2.1 summ i).1.2).1 b
      = softmax _ from Decoder.forward_dist m.decoder _ _ _ _ _ _ b]
    exact softmax_pos _ v
  · rw [forward_eq_loop, stepResult_eq_loopStep]
    exact loop_get_attn m.decoder _ _ _ summ _ i hik
  · rw [stepResult_eq_loopStep]
    unfold PointerGeneratorNetwork.loopStep
    rw [Decoder.forward_attn]
    exact softmax_pos _ s
  · rw [forward_eq_loop, stepResult_eq_loopStep]
    exact loop_get_cov m.decoder _ _ _ summ _ i hik
  · rw [stepResult_eq_loopStep]
    unfold PointerGeneratorNetwork.loopStep
    rw [Decoder.forward_cov, Decoder.forward_attn]
    exact add_pos_of_nonneg_of_pos
      (loop_cov_nonneg m.decoder _ _ _ summ i s b) (softmax_pos _ s)

/-- C1 (code bug): the decoder state is NOT threaded forward.  The first
conjunct records (definitionally) that `PointerGeneratorNetwork.forward` runs
the decode loop with the encoder-derived `hidden` as a fixed parameter of the
loop — the source loop never rebinds `hidden`, so the recurrent state passed
to the Decoder at every step `i ≥ 1` is still the encoder-derived initial
state, not the state the Decoder produced at step `i-1`.  The second conjunct
shows the two differ at a concrete input (all parameters zero except the
decoder LSTM's candidate-gate bias): the state produced at step 0 has cell
entry `sigmoid 0 * tanh 1 ≠ 0`, while the state passed at step 1 (the
encoder's reduced state) has cell entry 0. -/
theorem c1_decoder_state_not_threaded :
    (∀ T, PointerGeneratorNetwork.forward cPGN cTexts cSumm T =
      (PointerGeneratorNetwork.loop cPGN.decoder (Encoder.forward cPGN.encoder cTexts).2.2
        (Encoder.forward cPGN.encoder cTexts).1 (Encoder.forward cPGN.encoder cTexts).2.1
        cSumm T).2) ∧
    ((Decoder.newState cPGN.decoder (cSumm 0) (Encoder.forward cPGN.encoder cTexts).2.2
        (PointerGeneratorNetwork.stateBefore cPGN cTexts cSumm 0).1 0).2 0 ≠
      (Encoder.forward cPGN.encoder cTexts).2.2.2 0 0) := by
  refine ⟨fun T => rfl, ?_⟩
  have hcell : (Encoder.forward cEncoder cTexts).2.2.2 0 0 = 0 := by
    simp [Encoder.forward, cEncoder, zeroLinear_apply, relu]
  have hcell' : (Encoder.forward cPGN.encoder cTexts).2.2.2 0 0 = 0 := hcell
  have hnew : (Decoder.newState cPGN.decoder (cSumm 0)
      (Encoder.forward cPGN.encoder cTexts).2.2
      (PointerGeneratorNetwork.stateBefore cPGN cTexts cSumm 0).1 0).2 0 =
      sigmoid 0 * Real.tanh 1 := by
    simp [Decoder.newState, LSTM.cell, cPGN, cDecoder, oneGLSTM, hcell]
  rw [hnew, hcell']
  exact ne_of_gt (mul_pos (sigmoid_pos 0) tanh_one_pos)

/-- C9 (counterexample): invoking the attention forward pass with actual batch
dimension `b = 2` while the configured `batch_size` is 1 (and `sourceLen = 1`,
so `batch_size` divides `sourceLen * b`) does NOT complete: the
`View(-1, batch_size)` reshape and the softmax succeed, but the subsequent
`torch.bmm` of the `[1, 1, 2]` weight tensor with the `[2, 1, 2]` encoder
output raises a shape mismatch. -/
theorem c9_attend_batch_mismatch_counterexample :
    Attention.forwardDyn cAttention 1 dHidden dEncOut dEncFeat dCov =
      Except.error "bmm: batch or sequence length mismatch" := by
  unfold Attention.forwardDyn
  rw [if_pos (by decide : (1 : ℕ) ∣ 1 * 2)]
  exact if_neg (by decide)

/-- C9 (amended): `Attention.forward` performs no explicit check of the input
batch dimension against the configured `batch_size`; when invoked with actual
batch `b ≠ batch_size` such that `batch_size` divides `sourceLen * b`, the
reshape and the softmax stage complete (normalizing over reshaped columns
that mix scores of different batch elements and source positions), but the
call then raises a shape mismatch at the `bmm` step rather than returning
weights. -/
theorem c9_attend_batch_mismatch_raises {H S b : ℕ} (m : Attention H) (Bcfg : ℕ)
    (hidden : Fin b → Vec (H + H)) (eo : Fin b → Fin S → Vec (H + H))
    (ef : Fin S → Fin b → Vec (H + H)) (cov : Fin S → Fin b → ℝ)
    (hne : Bcfg ≠ b) (hdvd : Bcfg ∣ S * b) :
    Attention.forwardDyn m Bcfg hidden eo ef cov =
      Except.error "bmm: batch or sequence length mismatch" := by
  unfold Attention.forwardDyn
  rw [if_pos hdvd]
  exact if_neg (fun hc => hne hc.1)

/-- Witness for C9 (amended) at a concrete mismatched invocation:
configured `batch_size = 2`, actual batch `b = 1`, `sourceLen = 2`. -/
theorem c9_attend_batch_mismatch_witness :
    ((2 : ℕ) ≠ 1 ∧ (2 : ℕ) ∣ 2 * 1) ∧
    Attention.forwardDyn cAttention 2 wHidden wEncOut wEncFeat wCov =
      Except.error "bmm: batch or sequence length mismatch" :=
  ⟨⟨by decide, by decide⟩,
   c9_attend_batch_mismatch_raises cAttention 2 wHidden wEncOut wEncFeat wCov
     (by decide) (by decide)⟩
